import Mathlib

/-
  Verification of the NFC Type 2 Tag HAL contract
  (components/nfc/t2t_lib/hal_t2t/hal_nfc_t2t.h).

  The repository ships only the header: the three enumerations and the
  signatures of the public operations.  The enumerations below are taken
  directly from the header; the behaviour of the operations (lifecycle
  state machine, parameter store, event dispatch) is not in the sources
  and is modelled from the specification, as marked on each definition.
-/

namespace HalNfc

/-- Return values generated by HAL_NFC functions
(`hal_nfc_retval`, hal_nfc_t2t.h lines 28-33). -/
inductive hal_nfc_retval where
  | HAL_NFC_RETVAL_OK
  | HAL_NFC_RETVAL_ERROR
  | HAL_NFC_RETVAL_INVALID_SIZE
  | HAL_NFC_RETVAL_TIMEOUT
  deriving DecidableEq, Repr

/-- Events passed to the upper-layer callback function
(`hal_nfc_event`, hal_nfc_t2t.h lines 36-41). -/
inductive hal_nfc_event where
  | HAL_NFC_EVENT_FIELD_ON
  | HAL_NFC_EVENT_FIELD_OFF
  | HAL_NFC_EVENT_DATA_RECEIVED
  | HAL_NFC_EVENT_DATA_TRANSMITTED
  deriving DecidableEq, Repr

/-- Parameter IDs for the set/get functions
(`hal_nfc_param_id`, hal_nfc_t2t.h lines 44-47). -/
inductive hal_nfc_param_id where
  | HAL_NFC_PARAM_ID_TESTING
  | HAL_NFC_PARAM_ID_UNKNOWN
  deriving DecidableEq, Repr

open hal_nfc_retval hal_nfc_event hal_nfc_param_id

/-- Modelled from the spec: the lifecycle states of the HAL state machine
(spec section 3, "HalState"): `Uninitialized, Configured, Active, Stopped,
Released`; initial state `Uninitialized`, terminal state `Released`.  The
header gives no state enumeration; this is the spec's data model. -/
inductive HalState where
  | Uninitialized
  | Configured
  | Active
  | Stopped
  | Released
  deriving DecidableEq, Repr

/-- Modelled from the spec: hardware-specific sizes that the contract leaves
open (spec section 9: maximum frame size and parameter value sizes "must be
exposed as explicit configuration rather than hard-coding guesses"). -/
structure Config where
  testingSize : Nat
  maxFrameSize : Nat
  deriving DecidableEq, Repr

/-- Modelled from the spec: the HAL's process-wide state (spec section 3):
the lifecycle state, the single callback registration (a pair of a callback
function, represented by an identifier, and its opaque context), the
parameter store (the one recognized parameter `TESTING`, an opaque byte
buffer), and the FIFO of accepted `send` payloads awaiting their
`DATA_TRANSMITTED` completion event (spec section 4.3). -/
structure Hal where
  st : HalState
  cb : Option (Nat × Nat)
  testing : List Nat
  pending : List (List Nat)
  deriving DecidableEq, Repr

/-- Modelled from the spec: the initial HAL value at module load
(spec section 3: "created at module load", state `Uninitialized`). -/
def initHal (cfg : Config) : Hal :=
  { st := HalState.Uninitialized
    cb := none
    testing := List.replicate cfg.testingSize 0
    pending := [] }

/-- Modelled from the spec: `hal_nfc_setup` (hal_nfc_t2t.h line 80, spec
section 4.1).  From `Uninitialized` (and from `Released`, since "`setup`
must be called again to reuse the HAL"): a null callback (`none`) is an
invalid argument, reported as `HAL_NFC_RETVAL_ERROR` since the header's
return enumeration carries no distinct invalid-argument code; a non-null
callback is registered together with its context and the state becomes
`Configured`.  In any other state the call fails and changes nothing. -/
def hal_nfc_setup (h : Hal) (callback : Option Nat) (cbContext : Nat) :
    hal_nfc_retval × Hal :=
  match h.st with
  | HalState.Uninitialized | HalState.Released =>
    match callback with
    | none => (HAL_NFC_RETVAL_ERROR, h)
    | some c =>
      (HAL_NFC_RETVAL_OK,
       { h with st := HalState.Configured, cb := some (c, cbContext) })
  | _ => (HAL_NFC_RETVAL_ERROR, h)

/-- Modelled from the spec: `hal_nfc_set_parameter` (hal_nfc_t2t.h line 94,
spec section 4.2): validates that the id is recognized and that the length
matches the parameter's expected size; copies the value in; wrong length is
`INVALID_SIZE`, unrecognized id is an invalid argument reported as
`HAL_NFC_RETVAL_ERROR`; failures change nothing. -/
def hal_nfc_set_parameter (cfg : Config) (h : Hal) (id : hal_nfc_param_id)
    (data : List Nat) : hal_nfc_retval × Hal :=
  match id with
  | HAL_NFC_PARAM_ID_TESTING =>
    if data.length = cfg.testingSize then
      (HAL_NFC_RETVAL_OK, { h with testing := data })
    else
      (HAL_NFC_RETVAL_INVALID_SIZE, h)
  | HAL_NFC_PARAM_ID_UNKNOWN => (HAL_NFC_RETVAL_ERROR, h)

/-- Modelled from the spec: `hal_nfc_get_parameter` (hal_nfc_t2t.h line 110,
spec section 4.2): if the buffer capacity `maxDataLength` is insufficient,
the required size is reported in place of `maxDataLength`, the result is
`INVALID_SIZE`, and the buffer is untouched; otherwise the value is copied
into the front of the buffer and the actual size written is reported.
Returns (retval, buffer contents after the call, `maxDataLength` after the
call). -/
def hal_nfc_get_parameter (h : Hal) (id : hal_nfc_param_id)
    (data : List Nat) (maxDataLength : Nat) :
    hal_nfc_retval × List Nat × Nat :=
  match id with
  | HAL_NFC_PARAM_ID_TESTING =>
    if maxDataLength < h.testing.length then
      (HAL_NFC_RETVAL_INVALID_SIZE, data, h.testing.length)
    else
      (HAL_NFC_RETVAL_OK, h.testing ++ data.drop h.testing.length,
       h.testing.length)
  | HAL_NFC_PARAM_ID_UNKNOWN => (HAL_NFC_RETVAL_ERROR, data, maxDataLength)

/-- Modelled from the spec: `hal_nfc_start` (hal_nfc_t2t.h line 119, spec
section 4.1): from `Configured` or `Stopped` the subsystem starts and the
state becomes `Active`; outside those states the call is a wrong-state
failure reported as `HAL_NFC_RETVAL_ERROR` and changes nothing. -/
def hal_nfc_start (h : Hal) : hal_nfc_retval × Hal :=
  match h.st with
  | HalState.Configured | HalState.Stopped =>
    (HAL_NFC_RETVAL_OK, { h with st := HalState.Active })
  | _ => (HAL_NFC_RETVAL_ERROR, h)

/-- Modelled from the spec: `hal_nfc_send` (hal_nfc_t2t.h line 133, spec
sections 4.1 and 4.3): only legal while `Active`; an empty packet is an
invalid argument (`HAL_NFC_RETVAL_ERROR`), a packet longer than the maximum
frame size is `INVALID_SIZE`; an accepted packet is appended to the FIFO of
pending transmissions and completes asynchronously.  Outside `Active` the
call fails and changes nothing. -/
def hal_nfc_send (cfg : Config) (h : Hal) (data : List Nat) :
    hal_nfc_retval × Hal :=
  match h.st with
  | HalState.Active =>
    if data.length = 0 then (HAL_NFC_RETVAL_ERROR, h)
    else if cfg.maxFrameSize < data.length then
      (HAL_NFC_RETVAL_INVALID_SIZE, h)
    else (HAL_NFC_RETVAL_OK, { h with pending := h.pending ++ [data] })
  | _ => (HAL_NFC_RETVAL_ERROR, h)

/-- Modelled from the spec: `hal_nfc_stop` (hal_nfc_t2t.h line 143, spec
section 4.1): from `Active` the subsystem stops and the state becomes
`Stopped`; outside `Active` the call is a wrong-state failure reported as
`HAL_NFC_RETVAL_ERROR` and changes nothing. -/
def hal_nfc_stop (h : Hal) : hal_nfc_retval × Hal :=
  match h.st with
  | HalState.Active => (HAL_NFC_RETVAL_OK, { h with st := HalState.Stopped })
  | _ => (HAL_NFC_RETVAL_ERROR, h)

/-- Modelled from the spec: `hal_nfc_done` (hal_nfc_t2t.h line 152, spec
sections 4.1 and 7): always succeeds, from every state; the state becomes
`Released`, the callback registration is invalidated, and in-flight
transmissions are aborted ("no more events will be posted"). -/
def hal_nfc_done (h : Hal) : hal_nfc_retval × Hal :=
  (HAL_NFC_RETVAL_OK,
   { h with st := HalState.Released, cb := none, pending := [] })

/-- Modelled from the spec: one callback invocation by the event dispatcher
(spec section 4.4): the registered callback is called with its context, the
event and the data. -/
structure Delivery where
  cbId : Nat
  context : Nat
  event : hal_nfc_event
  data : List Nat
  deriving DecidableEq, Repr

/-- Modelled from the spec: the dispatcher delivers an event to the
registered callback; the radio is commanded on only between `start` and
`stop`, so hardware events reach the callback only while `Active`
(spec sections 3 and 4.4). -/
def dispatch (h : Hal) (event : hal_nfc_event) (data : List Nat) :
    Option Delivery :=
  match h.st, h.cb with
  | HalState.Active, some (c, ctx) => some ⟨c, ctx, event, data⟩
  | _, _ => none

/-- Modelled from the spec: hardware transmission completion (spec section
4.3): while `Active` with a registered callback, the oldest pending
transmission completes and its `DATA_TRANSMITTED` event is delivered;
otherwise nothing happens. -/
def hwTxComplete (h : Hal) : Hal × Option Delivery :=
  match h.st, h.cb, h.pending with
  | HalState.Active, some (c, ctx), d :: rest =>
    ({ h with pending := rest },
     some ⟨c, ctx, HAL_NFC_EVENT_DATA_TRANSMITTED, d⟩)
  | _, _, _ => (h, none)

/-- One interaction with the HAL: a public call of the interface
(hal_nfc_t2t.h lines 80-152) or a hardware-level stimulus (field change,
frame reception, transmission completion). -/
inductive Cmd where
  | setup (callback : Option Nat) (cbContext : Nat)
  | set_parameter (id : hal_nfc_param_id) (data : List Nat)
  | get_parameter (id : hal_nfc_param_id) (data : List Nat) (maxDataLength : Nat)
  | start
  | send (data : List Nat)
  | stop
  | done
  | hwFieldOn
  | hwFieldOff
  | hwRx (data : List Nat)
  | hwTx
  deriving DecidableEq, Repr

/-- The observable outcome of one interaction: the return value (for public
calls) and the callback invocation it triggered (for hardware stimuli). -/
structure Out where
  ret : Option hal_nfc_retval
  ev : Option Delivery
  deriving DecidableEq, Repr

/-- Modelled from the spec: one step of the HAL under one interaction,
combining the public operations and the event dispatcher above. -/
def step (cfg : Config) (h : Hal) : Cmd → Hal × Out
  | Cmd.setup callback cbContext =>
    let r := hal_nfc_setup h callback cbContext
    (r.2, { ret := some r.1, ev := none })
  | Cmd.set_parameter id data =>
    let r := hal_nfc_set_parameter cfg h id data
    (r.2, { ret := some r.1, ev := none })
  | Cmd.get_parameter id data maxDataLength =>
    let r := hal_nfc_get_parameter h id data maxDataLength
    (h, { ret := some r.1, ev := none })
  | Cmd.start =>
    let r := hal_nfc_start h
    (r.2, { ret := some r.1, ev := none })
  | Cmd.send data =>
    let r := hal_nfc_send cfg h data
    (r.2, { ret := some r.1, ev := none })
  | Cmd.stop =>
    let r := hal_nfc_stop h
    (r.2, { ret := some r.1, ev := none })
  | Cmd.done =>
    let r := hal_nfc_done h
    (r.2, { ret := some r.1, ev := none })
  | Cmd.hwFieldOn =>
    (h, { ret := none, ev := dispatch h HAL_NFC_EVENT_FIELD_ON [] })
  | Cmd.hwFieldOff =>
    (h, { ret := none, ev := dispatch h HAL_NFC_EVENT_FIELD_OFF [] })
  | Cmd.hwRx data =>
    (h, { ret := none, ev := dispatch h HAL_NFC_EVENT_DATA_RECEIVED data })
  | Cmd.hwTx =>
    let r := hwTxComplete h
    (r.1, { ret := none, ev := r.2 })

/-- The HAL state after a sequence of interactions. -/
def runFrom (cfg : Config) (h : Hal) : List Cmd → Hal
  | [] => h
  | c :: cs => runFrom cfg (step cfg h c).1 cs

/-- The outcomes of a sequence of interactions, in order. -/
def outsFrom (cfg : Config) (h : Hal) : List Cmd → List Out
  | [] => []
  | c :: cs => (step cfg h c).2 :: outsFrom cfg (step cfg h c).1 cs

/-- The payload of a `DATA_TRANSMITTED` delivery, if the outcome is one. -/
def txPayload (o : Out) : List (List Nat) :=
  match o.ev with
  | some d =>
    if d.event = HAL_NFC_EVENT_DATA_TRANSMITTED then [d.data] else []
  | none => []

/-- The payloads of the `DATA_TRANSMITTED` events delivered along a
sequence of interactions, in delivery order. -/
def deliveredTxFrom (cfg : Config) (h : Hal) : List Cmd → List (List Nat)
  | [] => []
  | c :: cs =>
    txPayload (step cfg h c).2 ++ deliveredTxFrom cfg (step cfg h c).1 cs

/-- The payload of an accepted `send`, if the interaction is one. -/
def sendAccept (c : Cmd) (o : Out) : List (List Nat) :=
  match c with
  | Cmd.send data =>
    if o.ret = some HAL_NFC_RETVAL_OK then [data] else []
  | _ => []

/-- The payloads of the `send` calls accepted along a sequence of
interactions, in acceptance order. -/
def acceptedFrom (cfg : Config) (h : Hal) : List Cmd → List (List Nat)
  | [] => []
  | c :: cs =>
    sendAccept c (step cfg h c).2 ++ acceptedFrom cfg (step cfg h c).1 cs

/-- Whether an interaction is a `setup` call. -/
def isSetup : Cmd → Bool
  | Cmd.setup _ _ => true
  | _ => false

/-- Whether an interaction is a `start`, `send` or `stop` call. -/
def isCtl : Cmd → Bool
  | Cmd.start => true
  | Cmd.send _ => true
  | Cmd.stop => true
  | _ => false

/-- Whether an interaction is a `done` call. -/
def isDone : Cmd → Bool
  | Cmd.done => true
  | _ => false

/-- Whether some `setup` call in the sequence returns `OK`. -/
def setupOKin (cfg : Config) (h : Hal) : List Cmd → Bool
  | [] => false
  | c :: cs =>
    (isSetup c && ((step cfg h c).2.ret == some HAL_NFC_RETVAL_OK)) ||
      setupOKin cfg (step cfg h c).1 cs

/-- Modelled from the spec: which parameter ids the store recognizes
(spec sections 3 and 4.2: `Testing` is the one real parameter, `Unknown`
the unrecognized placeholder). -/
def recognized : hal_nfc_param_id → Bool
  | HAL_NFC_PARAM_ID_TESTING => true
  | HAL_NFC_PARAM_ID_UNKNOWN => false

/-- The stored value of a parameter in the store (the unrecognized
placeholder id has no stored value). -/
def storedValue (h : Hal) : hal_nfc_param_id → List Nat
  | HAL_NFC_PARAM_ID_TESTING => h.testing
  | HAL_NFC_PARAM_ID_UNKNOWN => []

/-- A concrete configuration for concrete executions: the `TESTING`
parameter holds one byte, frames are at most eight bytes. -/
def cfg0 : Config := { testingSize := 1, maxFrameSize := 8 }

/-- C2: for every state other than `Active`, `send(data, len)` returns an
error (`HAL_NFC_RETVAL_ERROR`), leaves the HAL state unchanged and produces
no event; `send` can return success only while the state is `Active`. -/
theorem C2_send_requires_active :
    ∀ (cfg : Config) (h : Hal) (data : List Nat),
    (h.st ≠ HalState.Active →
      (hal_nfc_send cfg h data).1 = HAL_NFC_RETVAL_ERROR ∧
      (hal_nfc_send cfg h data).2 = h ∧
      (step cfg h (Cmd.send data)).2.ev = none) ∧
    ((hal_nfc_send cfg h data).1 = HAL_NFC_RETVAL_OK →
      h.st = HalState.Active) := by
  intro cfg h data
  obtain ⟨st, cb, tst, pend⟩ := h
  cases st <;> simp [hal_nfc_send, step]

/-- Witness for C2 at a concrete non-`Active` state. -/
theorem C2_send_requires_active_witness :
    (hal_nfc_send cfg0 (initHal cfg0) [7]).1 = HAL_NFC_RETVAL_ERROR ∧
    (hal_nfc_send cfg0 (initHal cfg0) [7]).2 = initHal cfg0 ∧
    (step cfg0 (initHal cfg0) (Cmd.send [7])).2.ev = none :=
  (C2_send_requires_active cfg0 (initHal cfg0) [7]).1 (by decide)

/-- C3: `done()` never fails: from every state it returns success and
leaves the state `Released`; calling it twice in a row returns success both
times and the final state is `Released`. -/
theorem C3_done_idempotent :
    ∀ h : Hal,
    (hal_nfc_done h).1 = HAL_NFC_RETVAL_OK ∧
    (hal_nfc_done h).2.st = HalState.Released ∧
    (hal_nfc_done (hal_nfc_done h).2).1 = HAL_NFC_RETVAL_OK ∧
    (hal_nfc_done (hal_nfc_done h).2).2.st = HalState.Released := by
  intro h
  simp [hal_nfc_done]

/-- C4: for every recognized parameter id, `get_parameter` called with a
buffer capacity smaller than the stored value's size reports the required
size in place of `maxDataLength`, returns `INVALID_SIZE` and leaves the
buffer untouched; with sufficient capacity it copies the value into the
buffer and reports the number of bytes written. -/
theorem C4_get_parameter_capacity :
    ∀ (h : Hal) (id : hal_nfc_param_id) (data : List Nat)
      (maxDataLength : Nat),
    recognized id = true →
    (maxDataLength < (storedValue h id).length →
      hal_nfc_get_parameter h id data maxDataLength =
        (HAL_NFC_RETVAL_INVALID_SIZE, data, (storedValue h id).length)) ∧
    ((storedValue h id).length ≤ maxDataLength →
      hal_nfc_get_parameter h id data maxDataLength =
        (HAL_NFC_RETVAL_OK,
         storedValue h id ++ data.drop (storedValue h id).length,
         (storedValue h id).length)) := by
  intro h id data maxDataLength hrec
  cases id
  · constructor
    · intro hlt
      simp only [storedValue] at hlt
      simp [hal_nfc_get_parameter, storedValue, hlt]
    · intro hle
      simp only [storedValue] at hle
      simp [hal_nfc_get_parameter, storedValue, Nat.not_lt.mpr hle]
  · simp [recognized] at hrec

/-- Witness for C4 at a concrete undersized buffer. -/
theorem C4_get_parameter_capacity_witness :
    hal_nfc_get_parameter (initHal cfg0) HAL_NFC_PARAM_ID_TESTING [5, 6] 0 =
      (HAL_NFC_RETVAL_INVALID_SIZE, [5, 6], 1) :=
  (C4_get_parameter_capacity (initHal cfg0) HAL_NFC_PARAM_ID_TESTING [5, 6] 0
    (by decide)).1 (by decide)

/-- C6: in the `Uninitialized` state, `setup` with a null callback returns
an invalid-argument error (`HAL_NFC_RETVAL_ERROR`, the header's return
enumeration having no distinct invalid-argument code) and changes nothing;
with a non-null callback it registers the callback and its context, returns
success, and the state becomes `Configured`. -/
theorem C6_setup_from_uninitialized :
    ∀ (h : Hal) (c ctx : Nat),
    h.st = HalState.Uninitialized →
    (hal_nfc_setup h none ctx).1 = HAL_NFC_RETVAL_ERROR ∧
    (hal_nfc_setup h none ctx).2 = h ∧
    (hal_nfc_setup h (some c) ctx).1 = HAL_NFC_RETVAL_OK ∧
    (hal_nfc_setup h (some c) ctx).2.st = HalState.Configured ∧
    (hal_nfc_setup h (some c) ctx).2.cb = some (c, ctx) := by
  intro h c ctx hst
  obtain ⟨st, cb, tst, pend⟩ := h
  cases st <;> simp_all [hal_nfc_setup]

/-- Witness for C6 at the initial state. -/
theorem C6_setup_from_uninitialized_witness :
    (hal_nfc_setup (initHal cfg0) none 0).1 = HAL_NFC_RETVAL_ERROR ∧
    (hal_nfc_setup (initHal cfg0) none 0).2 = initHal cfg0 ∧
    (hal_nfc_setup (initHal cfg0) (some 1) 0).1 = HAL_NFC_RETVAL_OK ∧
    (hal_nfc_setup (initHal cfg0) (some 1) 0).2.st = HalState.Configured ∧
    (hal_nfc_setup (initHal cfg0) (some 1) 0).2.cb = some (1, 0) :=
  C6_setup_from_uninitialized (initHal cfg0) 1 0 rfl

/-- C7: `set_parameter` returns `INVALID_SIZE` when the length does not
match the parameter's expected size and an invalid-argument error
(`HAL_NFC_RETVAL_ERROR`) for the unrecognized id; both failures leave the
parameter store and the lifecycle state unchanged, and on success the value
is copied into the store. -/
theorem C7_set_parameter_validation :
    ∀ (cfg : Config) (h : Hal) (data : List Nat),
    (data.length ≠ cfg.testingSize →
      hal_nfc_set_parameter cfg h HAL_NFC_PARAM_ID_TESTING data =
        (HAL_NFC_RETVAL_INVALID_SIZE, h)) ∧
    (hal_nfc_set_parameter cfg h HAL_NFC_PARAM_ID_UNKNOWN data =
      (HAL_NFC_RETVAL_ERROR, h)) ∧
    (data.length = cfg.testingSize →
      hal_nfc_set_parameter cfg h HAL_NFC_PARAM_ID_TESTING data =
        (HAL_NFC_RETVAL_OK, { h with testing := data })) := by
  intro cfg h data
  refine ⟨fun hne => by simp [hal_nfc_set_parameter, hne],
    by simp [hal_nfc_set_parameter],
    fun he => by simp [hal_nfc_set_parameter, he]⟩

/-- Witness for C7 at a concrete wrong-sized value. -/
theorem C7_set_parameter_validation_witness :
    hal_nfc_set_parameter cfg0 (initHal cfg0) HAL_NFC_PARAM_ID_TESTING
      [1, 2] = (HAL_NFC_RETVAL_INVALID_SIZE, initHal cfg0) :=
  (C7_set_parameter_validation cfg0 (initHal cfg0) [1, 2]).1 (by decide)

/-- Every return value of every interaction is one of the four header
codes, and never `TIMEOUT` in this model. -/
theorem step_ret_not_timeout (cfg : Config) (h : Hal) (c : Cmd) :
    (step cfg h c).2.ret ≠ some HAL_NFC_RETVAL_TIMEOUT := by
  cases c <;>
    simp only [step, hal_nfc_setup, hal_nfc_set_parameter,
      hal_nfc_get_parameter, hal_nfc_start, hal_nfc_send, hal_nfc_stop,
      hal_nfc_done, dispatch, hwTxComplete] <;>
    (repeat' split) <;> simp

/-- C10: the return type of every public operation is the closed
four-element enumeration `hal_nfc_retval` (`OK`, `ERROR`, `INVALID_SIZE`,
`TIMEOUT`, pairwise distinct); there is no distinct invalid-argument or
operation-failed code, and every failing return of the modelled operations
is `HAL_NFC_RETVAL_ERROR` or `HAL_NFC_RETVAL_INVALID_SIZE`. -/
theorem C10_closed_retval_set :
    (∀ r : hal_nfc_retval,
      r = HAL_NFC_RETVAL_OK ∨ r = HAL_NFC_RETVAL_ERROR ∨
      r = HAL_NFC_RETVAL_INVALID_SIZE ∨ r = HAL_NFC_RETVAL_TIMEOUT) ∧
    ([HAL_NFC_RETVAL_OK, HAL_NFC_RETVAL_ERROR, HAL_NFC_RETVAL_INVALID_SIZE,
      HAL_NFC_RETVAL_TIMEOUT] : List hal_nfc_retval).Nodup ∧
    (∀ (cfg : Config) (h : Hal) (c : Cmd) (r : hal_nfc_retval),
      (step cfg h c).2.ret = some r → r ≠ HAL_NFC_RETVAL_OK →
      r = HAL_NFC_RETVAL_ERROR ∨ r = HAL_NFC_RETVAL_INVALID_SIZE) := by
  refine ⟨fun r => by cases r <;> simp, by decide, ?_⟩
  intro cfg h c r hret hne
  have hnt := step_ret_not_timeout cfg h c
  cases r <;> simp_all

/-- Witness for C10 at a concrete failing call. -/
theorem C10_closed_retval_set_witness :
    HAL_NFC_RETVAL_ERROR = HAL_NFC_RETVAL_ERROR ∨
    HAL_NFC_RETVAL_ERROR = HAL_NFC_RETVAL_INVALID_SIZE :=
  C10_closed_retval_set.2.2 cfg0 (initHal cfg0) Cmd.start
    HAL_NFC_RETVAL_ERROR (by decide) (by decide)

/-- The dispatcher delivers an event only while the state is `Active`. -/
theorem dispatch_some_active (h : Hal) (e : hal_nfc_event) (data : List Nat)
    (d : Delivery) (hd : dispatch h e data = some d) :
    h.st = HalState.Active := by
  obtain ⟨st, cb, tst, pend⟩ := h
  cases st <;> rcases cb with _ | ⟨c, ctx⟩ <;> simp_all [dispatch]

/-- A transmission completion delivers an event only while `Active`. -/
theorem hwTxComplete_some_active (h : Hal) (d : Delivery)
    (hd : (hwTxComplete h).2 = some d) : h.st = HalState.Active := by
  obtain ⟨st, cb, tst, pend⟩ := h
  cases st <;> rcases cb with _ | ⟨c, ctx⟩ <;> cases pend <;>
    simp_all [hwTxComplete]

/-- C8: `DATA_RECEIVED` and `DATA_TRANSMITTED` events are produced only
while the HAL state is `Active` (only between a successful `start` and the
next `stop` or `done`). -/
theorem C8_data_events_only_active :
    ∀ (cfg : Config) (h : Hal) (c : Cmd) (d : Delivery),
    (step cfg h c).2.ev = some d →
    (d.event = HAL_NFC_EVENT_DATA_RECEIVED ∨
     d.event = HAL_NFC_EVENT_DATA_TRANSMITTED) →
    h.st = HalState.Active := by
  intro cfg h c d hev _
  cases c <;>
    first
    | exact dispatch_some_active h _ _ d hev
    | exact hwTxComplete_some_active h d hev
    | simp [step] at hev

/-- Witness for C8 at a concrete reception while `Active`. -/
theorem C8_data_events_only_active_witness :
    (Hal.mk HalState.Active (some (1, 0)) [0] []).st = HalState.Active :=
  C8_data_events_only_active cfg0 (Hal.mk HalState.Active (some (1, 0)) [0] [])
    (Cmd.hwRx [3]) ⟨1, 0, HAL_NFC_EVENT_DATA_RECEIVED, [3]⟩ (by decide)
    (Or.inl rfl)

/-- From a released state with no registered callback, an interaction that
is not a successful `setup` delivers no event and leaves the HAL released
with no callback. -/
theorem step_released_inert (cfg : Config) (h : Hal) (c : Cmd)
    (hst : h.st = HalState.Released) (hcb : h.cb = none)
    (hns : ¬(isSetup c = true ∧
      (step cfg h c).2.ret = some HAL_NFC_RETVAL_OK)) :
    (step cfg h c).2.ev = none ∧
    (step cfg h c).1.st = HalState.Released ∧
    (step cfg h c).1.cb = none := by
  obtain ⟨st, cb, tst, pend⟩ := h
  cases c <;> simp_all [isSetup, step, hal_nfc_setup, hal_nfc_set_parameter,
    hal_nfc_get_parameter, hal_nfc_start, hal_nfc_send, hal_nfc_stop,
    hal_nfc_done, dispatch, hwTxComplete] <;>
    (repeat' split) <;> simp_all

/-- Without a successful re-`setup`, a released HAL with no registered
callback never delivers an event along any interaction sequence. -/
theorem released_no_events (cfg : Config) :
    ∀ (cs : List Cmd) (h : Hal),
    h.st = HalState.Released → h.cb = none →
    setupOKin cfg h cs = false →
    ∀ o ∈ outsFrom cfg h cs, o.ev = none := by
  intro cs
  induction cs with
  | nil =>
    intro h _ _ _ o ho
    simp [outsFrom] at ho
  | cons c cs ih =>
    intro h hst hcb hsetup o ho
    simp only [setupOKin, Bool.or_eq_false_iff, Bool.and_eq_false_iff] at hsetup
    have hns : ¬(isSetup c = true ∧
        (step cfg h c).2.ret = some HAL_NFC_RETVAL_OK) := by
      rcases hsetup.1 with h1 | h1
      · intro hcon; rw [hcon.1] at h1; cases h1
      · intro hcon; rw [hcon.2] at h1; simp at h1
    have hstep := step_released_inert cfg h c hst hcb hns
    simp only [outsFrom, List.mem_cons] at ho
    rcases ho with rfl | ho
    · exact hstep.1
    · exact ih (step cfg h c).1 hstep.2.1 hstep.2.2 hsetup.2 o ho

/-- C9: after `done()` returns, the registered callback is never invoked
again for any event, even if hardware-level events occur, until a `setup`
call succeeds again. -/
theorem C9_no_callback_after_done :
    ∀ (cfg : Config) (h : Hal) (cs : List Cmd),
    setupOKin cfg (hal_nfc_done h).2 cs = false →
    ∀ o ∈ outsFrom cfg (hal_nfc_done h).2 cs, o.ev = none := by
  intro cfg h cs hsetup
  exact released_no_events cfg cs (hal_nfc_done h).2 rfl rfl hsetup

/-- Witness for C9: a hardware reception right after `done()` delivers
nothing. -/
theorem C9_no_callback_after_done_witness :
    (step cfg0 (hal_nfc_done (initHal cfg0)).2 (Cmd.hwRx [3])).2.ev = none :=
  C9_no_callback_after_done cfg0 (initHal cfg0) [Cmd.hwRx [3]] (by decide)
    (step cfg0 (hal_nfc_done (initHal cfg0)).2 (Cmd.hwRx [3])).2 (by decide)

/-- From an unconfigured state (`Uninitialized` or `Released`), an
interaction that is not a successful `setup` keeps the HAL unconfigured,
and `start`, `send` and `stop` fail there without changing anything. -/
theorem step_unconfigured (cfg : Config) (h : Hal) (c : Cmd)
    (hst : h.st = HalState.Uninitialized ∨ h.st = HalState.Released)
    (hns : ¬(isSetup c = true ∧
      (step cfg h c).2.ret = some HAL_NFC_RETVAL_OK)) :
    ((step cfg h c).1.st = HalState.Uninitialized ∨
     (step cfg h c).1.st = HalState.Released) ∧
    (isCtl c = true →
      (step cfg h c).1 = h ∧
      (step cfg h c).2.ret = some HAL_NFC_RETVAL_ERROR) := by
  obtain ⟨st, cb, tst, pend⟩ := h
  rcases hst with hst | hst <;> subst hst <;>
    cases c <;> simp_all [isSetup, isCtl, step, hal_nfc_setup,
      hal_nfc_set_parameter, hal_nfc_get_parameter, hal_nfc_start,
      hal_nfc_send, hal_nfc_stop, hal_nfc_done, dispatch, hwTxComplete] <;>
    (repeat' split) <;> simp_all

/-- Without a successful `setup`, the lifecycle state stays `Uninitialized`
or `Released` along any interaction sequence. -/
theorem noSetup_states (cfg : Config) :
    ∀ (cs : List Cmd) (h : Hal),
    (h.st = HalState.Uninitialized ∨ h.st = HalState.Released) →
    setupOKin cfg h cs = false →
    (runFrom cfg h cs).st = HalState.Uninitialized ∨
    (runFrom cfg h cs).st = HalState.Released := by
  intro cs
  induction cs with
  | nil => intro h hst _; exact hst
  | cons c cs ih =>
    intro h hst hsetup
    simp only [setupOKin, Bool.or_eq_false_iff, Bool.and_eq_false_iff]
      at hsetup
    have hns : ¬(isSetup c = true ∧
        (step cfg h c).2.ret = some HAL_NFC_RETVAL_OK) := by
      rcases hsetup.1 with h1 | h1
      · intro hcon; rw [hcon.1] at h1; cases h1
      · intro hcon; rw [hcon.2] at h1; simp at h1
    exact ih (step cfg h c).1
      (step_unconfigured cfg h c hst hns).1 hsetup.2

/-- C1 (amended): along every interaction sequence from the initial
`Uninitialized` state, a `start`, `send` or `stop` call that returns
success is preceded by a successful `setup`; without a prior successful
`setup` those calls return `HAL_NFC_RETVAL_ERROR` and change nothing, the
state remaining `Uninitialized` or — once `done()` has been called —
`Released`. -/
theorem C1_setup_precedes_success :
    (∀ (cfg : Config) (p : List Cmd) (c : Cmd), isCtl c = true →
      (step cfg (runFrom cfg (initHal cfg) p) c).2.ret =
        some HAL_NFC_RETVAL_OK →
      setupOKin cfg (initHal cfg) p = true) ∧
    (∀ (cfg : Config) (p : List Cmd) (c : Cmd), isCtl c = true →
      setupOKin cfg (initHal cfg) p = false →
      (step cfg (runFrom cfg (initHal cfg) p) c).2.ret =
        some HAL_NFC_RETVAL_ERROR ∧
      (step cfg (runFrom cfg (initHal cfg) p) c).1 =
        runFrom cfg (initHal cfg) p ∧
      ((runFrom cfg (initHal cfg) p).st = HalState.Uninitialized ∨
       (runFrom cfg (initHal cfg) p).st = HalState.Released)) := by
  have key : ∀ (cfg : Config) (p : List Cmd) (c : Cmd), isCtl c = true →
      setupOKin cfg (initHal cfg) p = false →
      (step cfg (runFrom cfg (initHal cfg) p) c).2.ret =
        some HAL_NFC_RETVAL_ERROR ∧
      (step cfg (runFrom cfg (initHal cfg) p) c).1 =
        runFrom cfg (initHal cfg) p ∧
      ((runFrom cfg (initHal cfg) p).st = HalState.Uninitialized ∨
       (runFrom cfg (initHal cfg) p).st = HalState.Released) := by
    intro cfg p c hctl hsetup
    have hst := noSetup_states cfg p (initHal cfg) (Or.inl rfl) hsetup
    have hns : ¬(isSetup c = true ∧
        (step cfg (runFrom cfg (initHal cfg) p) c).2.ret =
          some HAL_NFC_RETVAL_OK) := by
      intro hcon
      cases c <;> simp_all [isSetup, isCtl]
    have hstep := step_unconfigured cfg (runFrom cfg (initHal cfg) p) c
      hst hns
    exact ⟨(hstep.2 hctl).2, (hstep.2 hctl).1, hst⟩
  refine ⟨?_, key⟩
  intro cfg p c hctl hok
  by_contra hfalse
  have hsetup : setupOKin cfg (initHal cfg) p = false := by
    cases hval : setupOKin cfg (initHal cfg) p
    · rfl
    · exact absurd hval hfalse
  have := (key cfg p c hctl hsetup).1
  rw [this] at hok
  cases hok

/-- Witness for C1 on the empty prefix: `start` from the initial state
fails and changes nothing. -/
theorem C1_setup_precedes_success_witness :
    (step cfg0 (runFrom cfg0 (initHal cfg0) []) Cmd.start).2.ret =
      some HAL_NFC_RETVAL_ERROR ∧
    (step cfg0 (runFrom cfg0 (initHal cfg0) []) Cmd.start).1 =
      runFrom cfg0 (initHal cfg0) [] ∧
    ((runFrom cfg0 (initHal cfg0) []).st = HalState.Uninitialized ∨
     (runFrom cfg0 (initHal cfg0) []).st = HalState.Released) :=
  C1_setup_precedes_success.2 cfg0 [] Cmd.start (by decide) (by decide)

/-- Counterexample to C1 as stated: `done()` is a public call that succeeds
with no prior `setup` and moves the state to `Released`, so a subsequent
`start` returns an error but does not "leave the state Uninitialized". -/
theorem C1_counterexample :
    setupOKin cfg0 (initHal cfg0) [Cmd.done] = false ∧
    (step cfg0 (runFrom cfg0 (initHal cfg0) [Cmd.done]) Cmd.start).2.ret =
      some HAL_NFC_RETVAL_ERROR ∧
    (step cfg0 (runFrom cfg0 (initHal cfg0) [Cmd.done]) Cmd.start).1.st ≠
      HalState.Uninitialized := by
  decide

/-- Across one interaction that is not `done`, the delivered completion (if
any) plus the new pending FIFO account exactly for the old pending FIFO
plus the newly accepted send (if any). -/
theorem step_tx_pending_eq (cfg : Config) (h : Hal) (c : Cmd)
    (hc : isDone c = false) :
    txPayload (step cfg h c).2 ++ (step cfg h c).1.pending =
      h.pending ++ sendAccept c (step cfg h c).2 := by
  obtain ⟨st, cb, tst, pend⟩ := h
  cases c <;> cases st <;> rcases cb with _ | ⟨cc, cctx⟩ <;>
    rcases pend with _ | ⟨d0, rest⟩ <;>
    simp_all [isDone, step, hal_nfc_setup, hal_nfc_set_parameter,
      hal_nfc_get_parameter, hal_nfc_start, hal_nfc_send, hal_nfc_stop,
      dispatch, hwTxComplete, txPayload, sendAccept] <;>
    (repeat' split) <;> simp_all

/-- Across one interaction, the delivered completion plus the new pending
FIFO form a subsequence of the old pending FIFO plus the newly accepted
send: `done` may drop pending completions, nothing else is lost. -/
theorem step_tx_pending_sub (cfg : Config) (h : Hal) (c : Cmd) :
    List.Sublist
      (txPayload (step cfg h c).2 ++ (step cfg h c).1.pending)
      (h.pending ++ sendAccept c (step cfg h c).2) := by
  cases hd : isDone c
  · exact (step_tx_pending_eq cfg h c hd).symm ▸ List.Sublist.refl _
  · have hdone : c = Cmd.done := by cases c <;> simp_all [isDone]
    subst hdone
    simp [step, hal_nfc_done, txPayload, sendAccept]

/-- Delivered `DATA_TRANSMITTED` payloads form an order-preserving
subsequence of the old pending FIFO followed by the accepted sends. -/
theorem deliveredTx_sublist (cfg : Config) :
    ∀ (cs : List Cmd) (h : Hal),
    List.Sublist (deliveredTxFrom cfg h cs)
      (h.pending ++ acceptedFrom cfg h cs) := by
  intro cs
  induction cs with
  | nil =>
    intro h
    simp only [deliveredTxFrom, acceptedFrom]
    exact List.nil_sublist _
  | cons c cs ih =>
    intro h
    have h2 := (ih (step cfg h c).1).append_left (txPayload (step cfg h c).2)
    rw [← List.append_assoc] at h2
    have h3 := (step_tx_pending_sub cfg h c).append_right
      (acceptedFrom cfg (step cfg h c).1 cs)
    have hgoal := h2.trans h3
    rw [List.append_assoc] at hgoal
    exact hgoal

/-- If no `done` occurs, delivered completions plus the final pending FIFO
account exactly for the initial pending FIFO plus all accepted sends. -/
theorem noAbort_accounting (cfg : Config) :
    ∀ (cs : List Cmd) (h : Hal),
    (cs.all fun c => !(isDone c)) = true →
    deliveredTxFrom cfg h cs ++ (runFrom cfg h cs).pending =
      h.pending ++ acceptedFrom cfg h cs := by
  intro cs
  induction cs with
  | nil =>
    intro h _
    simp [deliveredTxFrom, acceptedFrom, runFrom]
  | cons c cs ih =>
    intro h hall
    simp only [List.all_cons, Bool.and_eq_true, Bool.not_eq_eq_eq_not,
      Bool.not_true] at hall
    have hstep := step_tx_pending_eq cfg h c hall.1
    calc deliveredTxFrom cfg h (c :: cs) ++
          (runFrom cfg h (c :: cs)).pending
        = txPayload (step cfg h c).2 ++
            (deliveredTxFrom cfg (step cfg h c).1 cs ++
             (runFrom cfg (step cfg h c).1 cs).pending) := by
          simp [deliveredTxFrom, runFrom, List.append_assoc]
      _ = txPayload (step cfg h c).2 ++
            ((step cfg h c).1.pending ++
             acceptedFrom cfg (step cfg h c).1 cs) := by
          rw [ih (step cfg h c).1 (by simp_all [List.all_eq_true])]
      _ = (txPayload (step cfg h c).2 ++ (step cfg h c).1.pending) ++
            acceptedFrom cfg (step cfg h c).1 cs := by
          rw [List.append_assoc]
      _ = (h.pending ++ sendAccept c (step cfg h c).2) ++
            acceptedFrom cfg (step cfg h c).1 cs := by rw [hstep]
      _ = h.pending ++ acceptedFrom cfg h (c :: cs) := by
          rw [List.append_assoc]; rfl

/-- While `Active` with a registered callback, one hardware completion per
pending send delivers exactly the pending payloads, in FIFO order. -/
theorem flush_pending (cfg : Config) :
    ∀ (l : List (List Nat)) (h : Hal) (p : Nat × Nat),
    h.st = HalState.Active → h.cb = some p → h.pending = l →
    deliveredTxFrom cfg h (List.replicate l.length Cmd.hwTx) = l ∧
    (runFrom cfg h (List.replicate l.length Cmd.hwTx)).pending = [] ∧
    (runFrom cfg h (List.replicate l.length Cmd.hwTx)).st =
      HalState.Active := by
  intro l
  induction l with
  | nil =>
    intro h p hst hcb hpend
    simp [deliveredTxFrom, runFrom, hpend, hst]
  | cons d rest ih =>
    intro h p hst hcb hpend
    obtain ⟨pc, pctx⟩ := p
    have hstep : step cfg h Cmd.hwTx =
        ({ h with pending := rest },
         { ret := none,
           ev := some ⟨pc, pctx, HAL_NFC_EVENT_DATA_TRANSMITTED, d⟩ }) := by
      simp [step, hwTxComplete, hst, hcb, hpend]
    have hih := ih { h with pending := rest } (pc, pctx) hst hcb rfl
    simp only [List.length_cons, List.replicate_succ, deliveredTxFrom,
      runFrom, hstep]
    simp only [txPayload]
    simp [hih.1, hih.2.1, hih.2.2]

/-- C5 (amended): completions never outrun or reorder acceptances — along
any interaction sequence the delivered `DATA_TRANSMITTED` payloads are an
order-preserving subsequence of the accepted `send` payloads (at most one
completion per acceptance, in acceptance order); if no `done` occurs,
delivered completions plus still-pending sends account exactly for all
accepted sends; and while `Active` with a registered callback, one hardware
completion per pending send delivers exactly the pending payloads in
order. -/
theorem C5_tx_completion_order :
    (∀ (cfg : Config) (cs : List Cmd),
      List.Sublist (deliveredTxFrom cfg (initHal cfg) cs)
        (acceptedFrom cfg (initHal cfg) cs)) ∧
    (∀ (cfg : Config) (cs : List Cmd),
      (cs.all fun c => !(isDone c)) = true →
      deliveredTxFrom cfg (initHal cfg) cs ++
          (runFrom cfg (initHal cfg) cs).pending =
        acceptedFrom cfg (initHal cfg) cs) ∧
    (∀ (cfg : Config) (h : Hal) (p : Nat × Nat),
      h.st = HalState.Active → h.cb = some p →
      deliveredTxFrom cfg h (List.replicate h.pending.length Cmd.hwTx) =
        h.pending ∧
      (runFrom cfg h
        (List.replicate h.pending.length Cmd.hwTx)).pending = []) := by
  refine ⟨fun cfg cs => ?_, fun cfg cs hall => ?_, fun cfg h p hst hcb => ?_⟩
  · have := deliveredTx_sublist cfg cs (initHal cfg)
    simpa [initHal] using this
  · have := noAbort_accounting cfg cs (initHal cfg) hall
    simpa [initHal] using this
  · have := flush_pending cfg h.pending h p hst hcb rfl
    exact ⟨this.1, this.2.1⟩

/-- Witness for C5: flushing two pending sends delivers both, in order. -/
theorem C5_tx_completion_order_witness :
    deliveredTxFrom cfg0
        (Hal.mk HalState.Active (some (1, 0)) [0] [[7], [8]])
        (List.replicate 2 Cmd.hwTx) = [[7], [8]] ∧
    (runFrom cfg0 (Hal.mk HalState.Active (some (1, 0)) [0] [[7], [8]])
        (List.replicate 2 Cmd.hwTx)).pending = [] :=
  C5_tx_completion_order.2.2 cfg0
    (Hal.mk HalState.Active (some (1, 0)) [0] [[7], [8]]) (1, 0) rfl rfl

/-- Running an interaction sequence in two pieces. -/
theorem runFrom_append (cfg : Config) :
    ∀ (cs ds : List Cmd) (h : Hal),
    runFrom cfg h (cs ++ ds) = runFrom cfg (runFrom cfg h cs) ds := by
  intro cs
  induction cs with
  | nil => intro ds h; rfl
  | cons c cs ih =>
    intro ds h
    rw [List.cons_append]
    show runFrom cfg (step cfg h c).1 (cs ++ ds) =
      runFrom cfg (runFrom cfg (step cfg h c).1 cs) ds
    exact ih ds (step cfg h c).1

/-- Delivered completions of an interaction sequence run in two pieces. -/
theorem deliveredTxFrom_append (cfg : Config) :
    ∀ (cs ds : List Cmd) (h : Hal),
    deliveredTxFrom cfg h (cs ++ ds) =
      deliveredTxFrom cfg h cs ++
        deliveredTxFrom cfg (runFrom cfg h cs) ds := by
  intro cs
  induction cs with
  | nil => intro ds h; rfl
  | cons c cs ih =>
    intro ds h
    rw [List.cons_append]
    show txPayload (step cfg h c).2 ++
        deliveredTxFrom cfg (step cfg h c).1 (cs ++ ds) =
      (txPayload (step cfg h c).2 ++
        deliveredTxFrom cfg (step cfg h c).1 cs) ++
        deliveredTxFrom cfg (runFrom cfg (step cfg h c).1 cs) ds
    rw [ih ds (step cfg h c).1, List.append_assoc]

/-- Accepted sends of an interaction sequence run in two pieces. -/
theorem acceptedFrom_append (cfg : Config) :
    ∀ (cs ds : List Cmd) (h : Hal),
    acceptedFrom cfg h (cs ++ ds) =
      acceptedFrom cfg h cs ++
        acceptedFrom cfg (runFrom cfg h cs) ds := by
  intro cs
  induction cs with
  | nil => intro ds h; rfl
  | cons c cs ih =>
    intro ds h
    rw [List.cons_append]
    show sendAccept c (step cfg h c).2 ++
        acceptedFrom cfg (step cfg h c).1 (cs ++ ds) =
      (sendAccept c (step cfg h c).2 ++
        acceptedFrom cfg (step cfg h c).1 cs) ++
        acceptedFrom cfg (runFrom cfg (step cfg h c).1 cs) ds
    rw [ih ds (step cfg h c).1, List.append_assoc]

/-- The finite-trace rendering of "every accepted `send` eventually yields
exactly one `DATA_TRANSMITTED` event, in call order": some extension of the
interaction sequence makes the delivered completions match the accepted
sends exactly. -/
def eventuallyEach (cfg : Config) (cs : List Cmd) : Prop :=
  ∃ ext : List Cmd,
    deliveredTxFrom cfg (initHal cfg) (cs ++ ext) =
      acceptedFrom cfg (initHal cfg) (cs ++ ext)

/-- The concrete run refuting C5 as stated: a `send` is accepted and
`done()` is called before the transmission completes. -/
def abortTrace : List Cmd :=
  [Cmd.setup (some 1) 0, Cmd.start, Cmd.send [7], Cmd.done]

/-- Counterexample to C5 as stated: a `send` accepted and then aborted by
`done()` never yields its `DATA_TRANSMITTED` event — no extension of the
run delivers one completion per accepted send. -/
theorem C5_counterexample : ¬ eventuallyEach cfg0 abortTrace := by
  rintro ⟨ext, hEq⟩
  rw [deliveredTxFrom_append, acceptedFrom_append] at hEq
  have hpre : deliveredTxFrom cfg0 (initHal cfg0) abortTrace = [] := by
    decide
  have hacc : acceptedFrom cfg0 (initHal cfg0) abortTrace = [[7]] := by
    decide
  have hpend : (runFrom cfg0 (initHal cfg0) abortTrace).pending = [] := by
    decide
  have hsub := deliveredTx_sublist cfg0 ext
    (runFrom cfg0 (initHal cfg0) abortTrace)
  rw [hpend] at hsub
  have hle := hsub.length_le
  simp only [List.nil_append] at hle
  rw [hpre, hacc] at hEq
  have hlen := congrArg List.length hEq
  simp only [List.nil_append, List.length_cons, List.length_append] at hlen
  omega

end HalNfc
